import Mathlib

/-!
Verification development for the autofill-extension backend
(`ai-service/app.py`, `ai-service/pattern_service.py`, `resume_service.py`).

The Python sources are shallowly embedded: the pattern store (Supabase
tables `learned_patterns`, `global_patterns`, `user_profiles`) becomes an
explicit `Store` state threaded through the operations; float arithmetic
on confidences/thresholds becomes exact rational arithmetic (`ℚ`, with
Python's `/` on nonnegative integers rendered as `mkRat`); fallible store
writes consume an explicit list of `WriteOutcome`s standing for the
results the external store returns for successive write requests.
-/

namespace Autofill

/-- ASCII lowercase of one character, embedding Python `str.lower` on the
ASCII inputs this service handles. -/
def toLowerChar (c : Char) : Char :=
  if 'A' ≤ c ∧ c ≤ 'Z' then Char.ofNat (c.toNat + 32) else c

/-- Characters stripped by Python `str.strip()` / split by `str.split()`. -/
def isSpaceChar (c : Char) : Bool :=
  c = ' ' || c = '\t' || c = '\n' || c = '\r' || c = '\x0b' || c = '\x0c'

/-- Embedding of Python `s.lower()` (ASCII scope). -/
def strLower (s : String) : String :=
  String.mk (s.toList.map toLowerChar)

/-- Embedding of Python `s.strip()`. -/
def strTrim (s : String) : String :=
  String.mk (((s.toList.dropWhile isSpaceChar).reverse.dropWhile isSpaceChar).reverse)

/-- The normalization applied throughout the sources: `text.lower().strip()`. -/
def normalize (s : String) : String :=
  strTrim (strLower s)

/-- Accumulator-based word splitter: Python `s.split()` (split on runs of
whitespace, dropping empty fragments). -/
def splitWordsAux : List Char → List Char → List String
  | [], acc => if acc.isEmpty then [] else [String.mk acc.reverse]
  | c :: cs, acc =>
    if isSpaceChar c then
      if acc.isEmpty then splitWordsAux cs []
      else String.mk acc.reverse :: splitWordsAux cs []
    else splitWordsAux cs (c :: acc)

/-- The set of whitespace-delimited words of a string: Python
`set(s.split())`, as a duplicate-free list. -/
def wordsOf (s : String) : List String :=
  (splitWordsAux s.toList []).dedup

/-- One `answerMappings` entry (`pattern_service.py` rows /
`models.Pattern`): `{canonicalValue, variants, contextOptions}`. -/
structure AnswerMapping where
  canonicalValue : String
  variants : List String
  contextOptions : List String
deriving DecidableEq, Repr

/-- Modelled from the spec: `models.py` is not in the repository snapshot.
Fields follow spec §3 and the construction sites in `app.py` (the
`Pattern(...)` literal at the learn step and the upload request body). -/
structure Pattern where
  questionPattern : String
  intent : String
  canonicalKey : Option String
  fieldType : Option String
  confidence : ℚ
  source : String
  answerMappings : List AnswerMapping
  createdAt : Option String
deriving DecidableEq, Repr

/-- A row of the private `learned_patterns` table, with the columns
written by `save_pattern` (`pattern_service.py` lines 122-133). -/
structure DBRow where
  id : String
  user_email : String
  question_pattern : String
  intent : String
  canonical_key : Option String
  field_type : Option String
  confidence : ℚ
  answer_mappings : List AnswerMapping
  last_used : String
  created_at : String
deriving DecidableEq, Repr

/-- A row of the `global_patterns` table, with the fields read by
`search_pattern`. -/
structure GlobalRow where
  id : String
  question_pattern : String
  intent : String
  canonical_key : Option String
  answer_mappings : List AnswerMapping
deriving DecidableEq, Repr

/-- A row of `user_profiles`; the JSON `profile_data` payload is modelled
by the one field the stub-profile path writes (`{"personal": {"email":
...}}` in `pattern_service.py` line 161). -/
structure ProfileRow where
  email : String
  personalEmail : Option String
deriving DecidableEq, Repr

/-- The mutable state of the private side of the store: the
`learned_patterns` and `user_profiles` tables as row lists in iteration
order. -/
structure Store where
  learned : List DBRow
  profiles : List ProfileRow
deriving DecidableEq, Repr

/-- The dictionary `search_pattern` returns to the extension (its
`id`/`questionPattern`/`intent`/`canonicalKey`/`answerMappings` literal). -/
structure MatchResult where
  id : String
  questionPattern : String
  intent : String
  canonicalKey : Option String
  answerMappings : List AnswerMapping
deriving DecidableEq, Repr

/-- Conversion of a private row to the extension format
(`pattern_service.py` lines 48-54). -/
def toResultPrivate (r : DBRow) : MatchResult :=
  { id := r.id, questionPattern := r.question_pattern, intent := r.intent,
    canonicalKey := r.canonical_key, answerMappings := r.answer_mappings }

/-- Conversion of a global row to the extension format
(`pattern_service.py` lines 68-74 and 85-91). -/
def toResultGlobal (p : GlobalRow) : MatchResult :=
  { id := p.id, questionPattern := p.question_pattern, intent := p.intent,
    canonicalKey := p.canonical_key, answerMappings := p.answer_mappings }

/-- Word-overlap similarity (`pattern_service.py` line 82):
`len(matched_words) / max(len(q_words), len(p_words))`, the Python float
division rendered as an exact rational. -/
def overlap (qw pw : List String) : ℚ :=
  mkRat ((qw.filter (fun w => decide (w ∈ pw))).length : ℤ)
    (max qw.length pw.length)

/-- Modelled from the spec: `config.py` is not in the repository snapshot;
spec §8 fixes the design fuzzy threshold at 0.5. -/
def FUZZY_MATCH_THRESHOLD : ℚ := mkRat 1 2

/-- Modelled from the spec: `config.py` is not in the repository snapshot;
the confidence attached to pattern-memory answers is an abstract
configured constant, kept as an explicit parameter `pmc` of `predict` in
this development. This value is only used to instantiate witnesses. -/
def PATTERN_MEMORY_CONFIDENCE : ℚ := mkRat 9 10

/-- The body of the global-scan loop of `search_pattern`
(`pattern_service.py` lines 63-91): exact match on normalized text first,
then the fuzzy word-overlap test, both for a single candidate row. -/
def globalRowMatch (th : ℚ) (questionLower : String) (p : GlobalRow) :
    Option MatchResult :=
  let pq := normalize p.question_pattern
  if pq = questionLower then some (toResultGlobal p)
  else
    let qw := wordsOf questionLower
    let pw := wordsOf pq
    if 0 < qw.length ∧ 0 < pw.length then
      if th ≤ overlap qw pw then some (toResultGlobal p) else none
    else none

/-- The global-store scan of `search_pattern` (lines 58-93): first row
whose loop body returns a result wins. -/
def searchGlobal (th : ℚ) (questionLower : String) (rows : List GlobalRow) :
    Option MatchResult :=
  rows.findSome? (globalRowMatch th questionLower)

/-- The private-store scan of `search_pattern` (lines 41-56): first row of
the owner whose normalized text equals the normalized query. -/
def searchPrivate (rows : List DBRow) (questionLower : String) :
    Option MatchResult :=
  rows.findSome? (fun r =>
    if normalize r.question_pattern = questionLower
    then some (toResultPrivate r) else none)

/-- Embedding of `search_pattern(question, user_email)`
(`pattern_service.py` lines 36-95) over explicit table states. -/
def search_pattern (th : ℚ) (learned : List DBRow) (glob : List GlobalRow)
    (question : String) (user_email : Option String) : Option MatchResult :=
  let questionLower := normalize question
  match user_email with
  | some email =>
    match searchPrivate
        (learned.filter (fun r => r.user_email == email)) questionLower with
    | some m => some m
    | none => searchGlobal th questionLower glob
  | none => searchGlobal th questionLower glob

/-- Result the external store reports for one write request; `raised`
stands for a Python exception escaping the client call. -/
inductive WriteOutcome
  | ok
  | fkError
  | otherError
  | raised
deriving DecidableEq, Repr

/-- Kind of write request `save_pattern` issues: plain insert (line 154),
plain upsert on the update branch (line 150), or the self-heal retry
upsert with `on_conflict="id"` (line 163). -/
inductive WriteKind
  | insertNew
  | upsertExisting
  | upsertOnConflictId
deriving DecidableEq, Repr

/-- One write request recorded in a `save_pattern` trace. -/
structure WriteOp where
  kind : WriteKind
  row : DBRow
deriving DecidableEq, Repr

/-- Result of one `save_pattern` call: the returned boolean, the resulting
store, and the write requests and stub-profile creations it performed. -/
structure SaveTrace where
  result : Bool
  store : Store
  writeOps : List WriteOp
  stubProfiles : List String
deriving DecidableEq, Repr

/-- Effect of a successful insert into `learned_patterns`: the row is
appended in iteration order. -/
def applyInsert (s : Store) (row : DBRow) : Store :=
  { s with learned := s.learned ++ [row] }

/-- Effect of a successful upsert into `learned_patterns` keyed on the
primary key `id`: replace the row with that id, or append. -/
def applyUpsertById (s : Store) (row : DBRow) : Store :=
  if s.learned.any (fun r => r.id == row.id) then
    { s with learned := s.learned.map (fun r => if r.id == row.id then row else r) }
  else
    { s with learned := s.learned ++ [row] }

/-- Embedding of `save_user_profile(email, profile_data)`
(`resume_service.py` lines 15-33) at the call shape the self-heal path
uses: upsert of `user_profiles` on conflict column `email`. -/
def save_user_profile (s : Store) (email : String) (personalEmail : String) :
    Store :=
  let row : ProfileRow := { email := email, personalEmail := some personalEmail }
  if s.profiles.any (fun p => p.email == email) then
    { s with profiles := s.profiles.map (fun p => if p.email == email then row else p) }
  else
    { s with profiles := s.profiles ++ [row] }

/-- The row dictionary `db_data` built by `save_pattern`
(`pattern_service.py` lines 122-133); `now` stands for
`datetime.now().isoformat()`, and Python's falsy-`or` on `createdAt` is
rendered explicitly. -/
def mkDbData (email nq pid : String) (pat : Pattern) (now : String) : DBRow :=
  { id := pid, user_email := email, question_pattern := nq,
    intent := pat.intent, canonical_key := pat.canonicalKey,
    field_type := pat.fieldType, confidence := pat.confidence,
    answer_mappings := pat.answerMappings, last_used := now,
    created_at :=
      match pat.createdAt with
      | some c => if c = "" then now else c
      | none => now }

/-- Embedding of `save_pattern(pattern, user_email)`
(`pattern_service.py` lines 97-173). `hash` stands for the external
`hashlib.md5(...).hexdigest()[:12]` digest (an arbitrary deterministic
function of the key string); `env` lists the outcomes the store reports
for successive write requests (missing entries default to success). -/
def save_pattern (hash : String → String) (now : String)
    (env : List WriteOutcome) (s : Store) (pat : Pattern)
    (user_email : Option String) : SaveTrace :=
  match user_email with
  | none => { result := false, store := s, writeOps := [], stubProfiles := [] }
  | some email =>
    let nq := normalize pat.questionPattern
    let key := email ++ ":" ++ nq ++ ":" ++ pat.intent
    let freshId := "pattern_" ++ hash key
    let existing := s.learned.filter
      (fun r => r.user_email == email && r.question_pattern == nq)
    let isUpdate := !existing.isEmpty
    let pid := match existing with | [] => freshId | r :: _ => r.id
    let row := mkDbData email nq pid pat now
    let op1 : WriteOp :=
      { kind := if isUpdate then .upsertExisting else .insertNew, row := row }
    match env.headD .ok with
    | .ok =>
      let s1 := if isUpdate then applyUpsertById s row else applyInsert s row
      { result := true, store := s1, writeOps := [op1], stubProfiles := [] }
    | .otherError =>
      { result := false, store := s, writeOps := [op1], stubProfiles := [] }
    | .raised =>
      { result := false, store := s, writeOps := [op1], stubProfiles := [] }
    | .fkError =>
      let s1 := save_user_profile s email email
      let op2 : WriteOp := { kind := .upsertOnConflictId, row := row }
      match env.tail.headD .ok with
      | .ok =>
        { result := true, store := applyUpsertById s1 row,
          writeOps := [op1, op2], stubProfiles := [email] }
      | _ =>
        { result := false, store := s1,
          writeOps := [op1, op2], stubProfiles := [email] }

/-- The request body of `/predict` (`models.AIRequest`, per its uses in
`app.py`). -/
structure AIRequest where
  question : String
  fieldType : Option String
  options : Option (List String)
  userEmail : Option String
deriving DecidableEq, Repr

/-- The `/predict` response (`models.AIResponse`, per its uses in
`app.py`): answer, confidence, reasoning, and a possibly-absent intent. -/
structure AIResponse where
  answer : String
  confidence : ℚ
  reasoning : String
  intent : Option String
deriving DecidableEq, Repr

/-- Answer extraction from a memory match (`app.py` lines 85-90): first
variant of the first mapping, else its canonical value, else empty. -/
def extractAnswer (m : MatchResult) : String :=
  match m.answerMappings with
  | [] => ""
  | first :: _ =>
    match first.variants with
    | [] => first.canonicalValue
    | v :: _ => v

/-- The hard-safety intent guard of `app.py` lines 103-105: a missing or
empty (falsy) intent becomes `"unknown"`. -/
def guardIntent (i : Option String) : String :=
  match i with
  | none => "unknown"
  | some t => if t = "" then "unknown" else t

/-- The learn-gate threshold: the literal `0.70` in `app.py` line 108. -/
def LEARN_THRESHOLD : ℚ := mkRat 7 10

/-- Result of one `/predict` call: the response, the resulting store, and
the `save_pattern` calls made on the way. -/
structure PredictOut where
  response : AIResponse
  store : Store
  saves : List SaveTrace
deriving DecidableEq, Repr

/-- The AI-fallback tail of `predict` (`app.py` lines 100-130): guard the
intent, learn when the gate clears (the save's outcome and any exception
are discarded by the `try`/`except: pass`), and return the AI response. -/
def predictFallback (hash : String → String) (now : String)
    (env : List WriteOutcome) (s : Store) (req : AIRequest)
    (ai : AIResponse) : PredictOut :=
  let intent := guardIntent ai.intent
  let airesp := { ai with intent := some intent }
  if ai.answer ≠ "" ∧ LEARN_THRESHOLD ≤ ai.confidence then
    let pat : Pattern :=
      { questionPattern := normalize req.question, intent := intent,
        canonicalKey := none, fieldType := req.fieldType,
        confidence := ai.confidence, source := "AI",
        answerMappings :=
          [{ canonicalValue := ai.answer, variants := [ai.answer],
             contextOptions := req.options.getD [] }],
        createdAt := none }
    let tr := save_pattern hash now env s pat req.userEmail
    { response := airesp, store := tr.store, saves := [tr] }
  else
    { response := airesp, store := s, saves := [] }

/-- Embedding of the `/predict` handler (`app.py` lines 72-130): memory
lookup (note the source calls `search_pattern(request.question)` with no
user email), then AI fallback with the learn step. `ai` stands for the
value the external `predict_answer(request)` returns. -/
def predict (th pmc : ℚ) (hash : String → String) (now : String)
    (env : List WriteOutcome) (s : Store) (glob : List GlobalRow)
    (req : AIRequest) (ai : AIResponse) : PredictOut :=
  match search_pattern th s.learned glob req.question none with
  | some m =>
    let answer := extractAnswer m
    if answer ≠ "" then
      { response :=
          { answer := answer, confidence := pmc,
            reasoning := "Retrieved from Pattern Memory",
            intent := some m.intent },
        store := s, saves := [] }
    else predictFallback hash now env s req ai
  | none => predictFallback hash now env s req ai

/-- Characterization of one global-scan loop step as a Boolean test: the
candidate qualifies by exact normalized-text equality or by clearing the
fuzzy overlap threshold on nonempty word sets. -/
def globalRowQualifies (th : ℚ) (questionLower : String) (p : GlobalRow) : Bool :=
  decide (normalize p.question_pattern = questionLower) ||
    (decide (0 < (wordsOf questionLower).length ∧
        0 < (wordsOf (normalize p.question_pattern)).length) &&
      decide (th ≤ overlap (wordsOf questionLower)
        (wordsOf (normalize p.question_pattern))))

/-- If a `findSome?` scan yields a result, some listed element produced it. -/
lemma exists_of_findSome_eq_some {α β : Type} {f : α → Option β} {l : List α}
    {b : β} (h : l.findSome? f = some b) : ∃ a, a ∈ l ∧ f a = some b := by
  induction l with
  | nil => simp [List.findSome?_nil] at h
  | cons x xs ih =>
    rw [List.findSome?_cons] at h
    cases hx : f x with
    | some c =>
      simp only [hx] at h
      exact ⟨x, List.mem_cons_self x xs, by rw [hx, h]⟩
    | none =>
      simp only [hx] at h
      obtain ⟨a, ha, hfa⟩ := ih h
      exact ⟨a, List.mem_cons_of_mem x ha, hfa⟩

/-- A map that fixes every listed element is the identity on the list. -/
lemma map_eq_self_of_mem {α : Type} {g : α → α} {l : List α}
    (h : ∀ a ∈ l, g a = a) : l.map g = l := by
  induction l with
  | nil => rfl
  | cons x xs ih =>
    simp [h x (List.mem_cons_self x xs),
      ih (fun a ha => h a (List.mem_cons_of_mem x ha))]

/-- The response assembled by the AI-fallback tail, independent of the
write-outcome environment. -/
lemma predictFallback_response (hash : String → String) (now : String)
    (env : List WriteOutcome) (s : Store) (req : AIRequest) (ai : AIResponse) :
    (predictFallback hash now env s req ai).response =
      { ai with intent := some (guardIntent ai.intent) } := by
  unfold predictFallback
  split <;> rfl

/-- C6: a private exact hit for the owner is returned as-is, before and
independently of the global store. -/
theorem search_pattern_private_precedence
    (th : ℚ) (learned : List DBRow) (glob glob' : List GlobalRow)
    (q e : String) (m : MatchResult)
    (h : searchPrivate (learned.filter (fun r => r.user_email == e))
        (normalize q) = some m) :
    search_pattern th learned glob q (some e) = some m ∧
    search_pattern th learned glob q (some e) =
      search_pattern th learned glob' q (some e) := by
  have h1 : search_pattern th learned glob q (some e) = some m := by
    unfold search_pattern
    simp only [h]
  have h2 : search_pattern th learned glob' q (some e) = some m := by
    unfold search_pattern
    simp only [h]
  exact ⟨h1, h1.trans h2.symm⟩

theorem search_pattern_private_precedence_witness :
    search_pattern FUZZY_MATCH_THRESHOLD
      [⟨"p1", "a@x.com", "what is your gender", "eeo.gender", none, none, 1,
        [⟨"Male", ["Male"], []⟩], "t", "t"⟩]
      [⟨"g1", "what is your gender", "eeo.gender", none,
        [⟨"Female", ["Female"], []⟩]⟩]
      "What is your gender" (some "a@x.com")
    = some ⟨"p1", "what is your gender", "eeo.gender", none,
        [⟨"Male", ["Male"], []⟩]⟩ :=
  (search_pattern_private_precedence _ _ _ [] _ _ _ (by decide)).1

/-- C9: the `/predict` response does not depend on the outcomes the store
reports for the background learning write. -/
theorem predict_response_ignores_write_outcomes
    (th pmc : ℚ) (hash : String → String) (now : String)
    (env env' : List WriteOutcome) (s : Store) (glob : List GlobalRow)
    (req : AIRequest) (ai : AIResponse) :
    (predict th pmc hash now env s glob req ai).response =
      (predict th pmc hash now env' s glob req ai).response := by
  unfold predict
  cases search_pattern th s.learned glob req.question none with
  | none => rw [predictFallback_response, predictFallback_response]
  | some m =>
    dsimp only
    by_cases hm : extractAnswer m ≠ ""
    · rw [if_pos hm, if_pos hm]
    · rw [if_neg hm, if_neg hm, predictFallback_response, predictFallback_response]

/-- C10: a memory match whose extracted answer is empty is ignored; the
run is the one with no global match at all. -/
theorem predict_empty_memory_answer_falls_back
    (th pmc : ℚ) (hash : String → String) (now : String)
    (env : List WriteOutcome) (s : Store) (glob : List GlobalRow)
    (req : AIRequest) (ai : AIResponse) (m : MatchResult)
    (h1 : search_pattern th s.learned glob req.question none = some m)
    (h2 : extractAnswer m = "") :
    predict th pmc hash now env s glob req ai =
      predict th pmc hash now env s [] req ai := by
  have hnil : search_pattern th s.learned [] req.question none = none := rfl
  unfold predict
  rw [h1, hnil]
  simp [h2]

theorem predict_empty_memory_answer_falls_back_witness :
    predict FUZZY_MATCH_THRESHOLD PATTERN_MEMORY_CONFIDENCE (fun s => s) "t0"
      [] ⟨[], []⟩ [⟨"g1", "favorite color", "personal.favoriteColor", none, []⟩]
      ⟨"favorite color", none, none, some "a@x.com"⟩
      ⟨"Blue", mkRat 95 100, "llm", some "personal.favoriteColor"⟩ =
    predict FUZZY_MATCH_THRESHOLD PATTERN_MEMORY_CONFIDENCE (fun s => s) "t0"
      [] ⟨[], []⟩ []
      ⟨"favorite color", none, none, some "a@x.com"⟩
      ⟨"Blue", mkRat 95 100, "llm", some "personal.favoriteColor"⟩ :=
  predict_empty_memory_answer_falls_back _ _ _ _ _ _ _ _ _
    ⟨"g1", "favorite color", "personal.favoriteColor", none, []⟩
    (by decide) (by decide)

/-- The loop body returns the candidate's conversion exactly when the
candidate qualifies. -/
lemma globalRowMatch_eq_ite (th : ℚ) (qL : String) (p : GlobalRow) :
    globalRowMatch th qL p =
      if globalRowQualifies th qL p then some (toResultGlobal p) else none := by
  unfold globalRowMatch globalRowQualifies
  by_cases h1 : normalize p.question_pattern = qL
  · simp [h1]
  · by_cases h2 : 0 < (wordsOf qL).length ∧
        0 < (wordsOf (normalize p.question_pattern)).length
    · by_cases h3 : th ≤ overlap (wordsOf qL) (wordsOf (normalize p.question_pattern))
      · simp [h1, h2, h3]
      · simp [h1, h2, h3]
    · simp [h1, h2]

/-- C4 counterexample: with threshold 0.5 the store below holds a pattern
(`g2`) whose normalized text equals the normalized query, yet the scan
returns the earlier fuzzy candidate `g1`. -/
theorem searchGlobal_exact_priority_cex :
    search_pattern FUZZY_MATCH_THRESHOLD []
      [⟨"g1", "what is your age", "personal.age", none, [⟨"30", ["30"], []⟩]⟩,
       ⟨"g2", "what is your name", "personal.name", none, [⟨"Ada", ["Ada"], []⟩]⟩]
      "what is your name" none =
      some (toResultGlobal
        ⟨"g1", "what is your age", "personal.age", none, [⟨"30", ["30"], []⟩]⟩) ∧
    normalize "what is your name" = normalize "what is your name" ∧
    ("g1" : String) ≠ "g2" := by decide

/-- C4 amended: the global scan is a single pass in store-iteration
order: the first candidate that matches exactly or clears the fuzzy
threshold is returned (exact is preferred only within one candidate, not
across the store). -/
theorem searchGlobal_first_qualifying_single_pass (th : ℚ) (qL : String)
    (rows : List GlobalRow) :
    searchGlobal th qL rows =
      (rows.find? (globalRowQualifies th qL)).map toResultGlobal := by
  unfold searchGlobal
  induction rows with
  | nil => rfl
  | cons p ps ih =>
    rw [List.findSome?_cons, globalRowMatch_eq_ite]
    by_cases h : globalRowQualifies th qL p
    · simp [h, List.find?_cons]
    · simp only [h, List.find?_cons]
      simp [h, ih]

/-- C7: the fuzzy semantics of the global scan. (1) the overlap is
`|intersection| / max(|queryWords|, |candidateWords|)`; (2) for a
non-exact candidate with nonempty word sets, the loop body returns it iff
the overlap meets or exceeds the threshold (equality qualifies); (3) a
non-exact candidate with an empty word set on either side is skipped;
(4) the first candidate producing a result in store-iteration order wins. -/
theorem searchGlobal_fuzzy_semantics :
    (∀ (qw pw : List String), overlap qw pw =
        ((qw.filter (fun w => decide (w ∈ pw))).length : ℚ) /
          ((max qw.length pw.length : ℕ) : ℚ)) ∧
    (∀ (th : ℚ) (qL : String) (p : GlobalRow),
        normalize p.question_pattern ≠ qL →
        0 < (wordsOf qL).length →
        0 < (wordsOf (normalize p.question_pattern)).length →
        (globalRowMatch th qL p = some (toResultGlobal p) ↔
          th ≤ overlap (wordsOf qL) (wordsOf (normalize p.question_pattern)))) ∧
    (∀ (th : ℚ) (qL : String) (p : GlobalRow),
        normalize p.question_pattern ≠ qL →
        ((wordsOf qL).length = 0 ∨ (wordsOf (normalize p.question_pattern)).length = 0) →
        globalRowMatch th qL p = none) ∧
    (∀ (th : ℚ) (qL : String) (pre post : List GlobalRow) (p : GlobalRow)
        (r : MatchResult),
        (∀ p' ∈ pre, globalRowMatch th qL p' = none) →
        globalRowMatch th qL p = some r →
        searchGlobal th qL (pre ++ p :: post) = some r) := by
  refine ⟨?_, ?_, ?_, ?_⟩
  · intro qw pw
    unfold overlap
    rw [Rat.mkRat_eq_div]
    push_cast
    rfl
  · intro th qL p h1 h2 h3
    unfold globalRowMatch
    by_cases h4 : th ≤ overlap (wordsOf qL) (wordsOf (normalize p.question_pattern))
    · simp [h1, h2, h3, h4]
    · simp [h1, h2, h3, h4]
  · intro th qL p h1 h2
    unfold globalRowMatch
    rcases h2 with h2 | h2 <;> simp [h1, h2]
  · intro th qL pre post p r hpre hp
    unfold searchGlobal
    rw [List.findSome?_append]
    have hnone : pre.findSome? (globalRowMatch th qL) = none :=
      List.findSome?_eq_none_iff.mpr hpre
    rw [hnone, Option.none_or, List.findSome?_cons, hp]

theorem searchGlobal_fuzzy_semantics_witness :
    (globalRowMatch (mkRat 1 2) "a b c" ⟨"g1", "a b c d e f", "i", none, []⟩ =
      some (toResultGlobal ⟨"g1", "a b c d e f", "i", none, []⟩)) ∧
    (¬ (globalRowMatch (mkRat 1 2) "a" ⟨"g2", "a b c", "i", none, []⟩ =
      some (toResultGlobal ⟨"g2", "a b c", "i", none, []⟩))) ∧
    (globalRowMatch (mkRat 1 2) "a b" ⟨"g3", "   ", "i", none, []⟩ = none) ∧
    (searchGlobal (mkRat 1 2) "a b c"
        [⟨"g4", "x y z", "i", none, []⟩, ⟨"g1", "a b c d e f", "i", none, []⟩] =
      some (toResultGlobal ⟨"g1", "a b c d e f", "i", none, []⟩)) := by
  refine ⟨?_, ?_, ?_, ?_⟩
  · exact (searchGlobal_fuzzy_semantics.2.1 _ _ _
      (by decide) (by decide) (by decide)).mpr (by decide)
  · intro h
    exact absurd ((searchGlobal_fuzzy_semantics.2.1 _ _ _
      (by decide) (by decide) (by decide)).mp h) (by decide)
  · exact searchGlobal_fuzzy_semantics.2.2.1 _ _ _ (by decide) (by decide)
  · exact searchGlobal_fuzzy_semantics.2.2.2 _ _ [_] _ _ _
      (by decide) (by decide)

/-- The intent guard never yields the empty string. -/
lemma guardIntent_ne_empty (i : Option String) : guardIntent i ≠ "" := by
  cases i with
  | none => simp [guardIntent]
  | some t =>
    by_cases h : t = "" <;> simp [guardIntent, h]

/-- A result of the global loop body is the conversion of its candidate. -/
lemma globalRowMatch_result (th : ℚ) (qL : String) (p : GlobalRow)
    (m : MatchResult) (h : globalRowMatch th qL p = some m) :
    m = toResultGlobal p := by
  rw [globalRowMatch_eq_ite] at h
  by_cases hq : globalRowQualifies th qL p
  · rw [if_pos hq] at h
    exact (Option.some.injEq _ _ ▸ h).symm
  · rw [if_neg hq] at h
    exact absurd h (by simp)

/-- Without a user email, a `search_pattern` hit comes from a global row. -/
lemma search_pattern_no_email_from_global (th : ℚ) (learned : List DBRow)
    (glob : List GlobalRow) (q : String) (m : MatchResult)
    (h : search_pattern th learned glob q none = some m) :
    ∃ p, p ∈ glob ∧ m = toResultGlobal p := by
  unfold search_pattern searchGlobal at h
  obtain ⟨p, hp, hpm⟩ := exists_of_findSome_eq_some h
  exact ⟨p, hp, globalRowMatch_result _ _ _ _ hpm⟩

/-- C5 counterexample: a stored global pattern with an empty intent is
returned verbatim by the memory path, so the prediction carries an empty
intent. -/
theorem predict_intent_nonempty_cex :
    (predict FUZZY_MATCH_THRESHOLD PATTERN_MEMORY_CONFIDENCE (fun s => s) "t0"
      [] ⟨[], []⟩
      [⟨"g1", "favorite color", "", none, [⟨"Blue", ["Blue"], []⟩]⟩]
      ⟨"favorite color", none, none, none⟩
      ⟨"", 0, "llm", some "x"⟩).response =
    { answer := "Blue", confidence := PATTERN_MEMORY_CONFIDENCE,
      reasoning := "Retrieved from Pattern Memory", intent := some "" } := by decide

/-- C5 amended: the AI-fallback path always carries a non-empty intent
(`"unknown"` substituted for a missing or empty one); the memory path
returns the stored intent verbatim, hence non-empty provided every global
row's intent is non-empty. -/
theorem predict_intent_nonempty (th pmc : ℚ) (hash : String → String)
    (now : String) (env : List WriteOutcome) (s : Store)
    (glob : List GlobalRow) (req : AIRequest) (ai : AIResponse)
    (hg : ∀ p ∈ glob, p.intent ≠ "") :
    ∃ t, (predict th pmc hash now env s glob req ai).response.intent = some t ∧
      t ≠ "" := by
  unfold predict
  cases h : search_pattern th s.learned glob req.question none with
  | none =>
    exact ⟨guardIntent ai.intent, by rw [predictFallback_response],
      guardIntent_ne_empty _⟩
  | some m =>
    dsimp only
    by_cases hm : extractAnswer m ≠ ""
    · rw [if_pos hm]
      obtain ⟨p, hp, hmp⟩ := search_pattern_no_email_from_global _ _ _ _ _ h
      refine ⟨m.intent, rfl, ?_⟩
      rw [hmp]
      exact hg p hp
    · rw [if_neg hm]
      exact ⟨guardIntent ai.intent, by rw [predictFallback_response],
        guardIntent_ne_empty _⟩

theorem predict_intent_nonempty_witness :
    ∃ t, (predict FUZZY_MATCH_THRESHOLD PATTERN_MEMORY_CONFIDENCE (fun s => s)
      "t0" [] ⟨[], []⟩
      [⟨"g1", "favorite color", "personal.favoriteColor", none,
        [⟨"Blue", ["Blue"], []⟩]⟩]
      ⟨"favorite color", none, none, none⟩
      ⟨"", 0, "llm", none⟩).response.intent = some t ∧ t ≠ "" :=
  predict_intent_nonempty _ _ _ _ _ _ _ _ _ (by decide)

/-- The learn gate of the fallback tail: one save call iff the answer is
non-empty and the confidence clears 0.70. -/
lemma predictFallback_saves_length (hash : String → String) (now : String)
    (env : List WriteOutcome) (s : Store) (req : AIRequest) (ai : AIResponse) :
    (predictFallback hash now env s req ai).saves.length =
      if ai.answer ≠ "" ∧ LEARN_THRESHOLD ≤ ai.confidence then 1 else 0 := by
  unfold predictFallback
  by_cases hg : ai.answer ≠ "" ∧ LEARN_THRESHOLD ≤ ai.confidence
  · rw [if_pos hg, if_pos hg]
    rfl
  · rw [if_neg hg, if_neg hg]
    rfl

/-- C8: when pattern memory yields no usable answer, `predict` attempts a
learned-pattern write exactly once iff the fresh AI answer is non-empty
and its confidence is at least 0.70, and never otherwise. -/
theorem predict_learn_gate (th pmc : ℚ) (hash : String → String)
    (now : String) (env : List WriteOutcome) (s : Store)
    (glob : List GlobalRow) (req : AIRequest) (ai : AIResponse)
    (hmiss : ∀ m, search_pattern th s.learned glob req.question none = some m →
      extractAnswer m = "") :
    (predict th pmc hash now env s glob req ai).saves.length =
      if ai.answer ≠ "" ∧ LEARN_THRESHOLD ≤ ai.confidence then 1 else 0 := by
  unfold predict
  cases h : search_pattern th s.learned glob req.question none with
  | none => exact predictFallback_saves_length _ _ _ _ _ _
  | some m =>
    have hm : ¬ extractAnswer m ≠ "" := by simpa using hmiss m h
    dsimp only
    rw [if_neg hm]
    exact predictFallback_saves_length _ _ _ _ _ _

theorem predict_learn_gate_witness :
    (predict FUZZY_MATCH_THRESHOLD PATTERN_MEMORY_CONFIDENCE (fun s => s) "t0"
      [] ⟨[], []⟩ [] ⟨"q", none, none, some "a@x.com"⟩
      ⟨"Ans", mkRat 69 100, "r", some "i"⟩).saves.length = 0 ∧
    (predict FUZZY_MATCH_THRESHOLD PATTERN_MEMORY_CONFIDENCE (fun s => s) "t0"
      [] ⟨[], []⟩ [] ⟨"q", none, none, some "a@x.com"⟩
      ⟨"", mkRat 7 10, "r", some "i"⟩).saves.length = 0 ∧
    (predict FUZZY_MATCH_THRESHOLD PATTERN_MEMORY_CONFIDENCE (fun s => s) "t0"
      [] ⟨[], []⟩ [] ⟨"q", none, none, some "a@x.com"⟩
      ⟨"Ans", mkRat 7 10, "r", some "i"⟩).saves.length = 1 := by
  refine ⟨?_, ?_, ?_⟩
  · exact (predict_learn_gate _ _ _ _ _ _ _ _ _
      (fun m hm => Option.noConfusion hm)).trans (by decide)
  · exact (predict_learn_gate _ _ _ _ _ _ _ _ _
      (fun m hm => Option.noConfusion hm)).trans (by decide)
  · exact (predict_learn_gate _ _ _ _ _ _ _ _ _
      (fun m hm => Option.noConfusion hm)).trans (by decide)

/-- C3: the `/predict` handler calls `search_pattern` without forwarding
`request.userEmail`. At the input below the owner's private store holds
an exact match (second conjunct: `search_pattern` finds it when given the
email), yet `predict` returns the external predictor's answer. -/
theorem predict_does_not_search_private_store :
    (predict FUZZY_MATCH_THRESHOLD PATTERN_MEMORY_CONFIDENCE (fun s => s) "t0" []
      ⟨[⟨"p1", "alice@x.com", "what is your first name", "personal.firstName",
          none, none, 1, [⟨"Alice", ["Alice"], []⟩], "t", "t"⟩], []⟩
      []
      ⟨"what is your first name", none, none, some "alice@x.com"⟩
      ⟨"Bob", mkRat 1 2, "llm", some "personal.firstName"⟩).response =
      ⟨"Bob", mkRat 1 2, "llm", some "personal.firstName"⟩ ∧
    search_pattern FUZZY_MATCH_THRESHOLD
      [⟨"p1", "alice@x.com", "what is your first name", "personal.firstName",
          none, none, 1, [⟨"Alice", ["Alice"], []⟩], "t", "t"⟩]
      [] "what is your first name" (some "alice@x.com") =
      some ⟨"p1", "what is your first name", "personal.firstName", none,
        [⟨"Alice", ["Alice"], []⟩]⟩ := by decide

/-- On a successful run with no matching row, `save_pattern` inserts the
freshly-identified row. -/
lemma save_pattern_insert_case (hash : String → String) (now : String)
    (s : Store) (pat : Pattern) (e : String)
    (hfil : s.learned.filter (fun r => r.user_email == e &&
      r.question_pattern == normalize pat.questionPattern) = []) :
    save_pattern hash now [] s pat (some e) =
      { result := true,
        store := applyInsert s (mkDbData e (normalize pat.questionPattern)
          ("pattern_" ++ hash (e ++ ":" ++ normalize pat.questionPattern ++ ":" ++
            pat.intent)) pat now),
        writeOps := [⟨.insertNew, mkDbData e (normalize pat.questionPattern)
          ("pattern_" ++ hash (e ++ ":" ++ normalize pat.questionPattern ++ ":" ++
            pat.intent)) pat now⟩],
        stubProfiles := [] } := by
  unfold save_pattern
  dsimp only
  rw [hfil]
  rfl

/-- On a successful run with a matching row already present,
`save_pattern` reuses the first matching row's id and upserts in place. -/
lemma save_pattern_update_case (hash : String → String) (now : String)
    (s : Store) (pat : Pattern) (e : String) (r0 : DBRow) (tl : List DBRow)
    (hfil : s.learned.filter (fun r => r.user_email == e &&
      r.question_pattern == normalize pat.questionPattern) = r0 :: tl) :
    save_pattern hash now [] s pat (some e) =
      { result := true,
        store := applyUpsertById s
          (mkDbData e (normalize pat.questionPattern) r0.id pat now),
        writeOps := [⟨.upsertExisting,
          mkDbData e (normalize pat.questionPattern) r0.id pat now⟩],
        stubProfiles := [] } := by
  unfold save_pattern
  dsimp only
  rw [hfil]
  rfl

/-- C1: saving twice for the same (owner, normalized question, intent)
triple over a store with no prior row for the pair adds exactly one row:
the second call reuses the id minted by the first and overwrites every
field with the second call's values. -/
theorem save_pattern_upsert_identity (hash : String → String)
    (now₁ now₂ : String) (s : Store) (pat₁ pat₂ : Pattern) (e : String)
    (hq : normalize pat₂.questionPattern = normalize pat₁.questionPattern)
    (hi : pat₂.intent = pat₁.intent)
    (hnew : ∀ r ∈ s.learned,
      ¬ (r.user_email = e ∧ r.question_pattern = normalize pat₁.questionPattern))
    (hfresh : ∀ r ∈ s.learned, r.id ≠
      "pattern_" ++ hash (e ++ ":" ++ normalize pat₁.questionPattern ++ ":" ++
        pat₁.intent)) :
    (save_pattern hash now₁ [] s pat₁ (some e)).result = true ∧
    (save_pattern hash now₂ [] (save_pattern hash now₁ [] s pat₁ (some e)).store
      pat₂ (some e)).result = true ∧
    (save_pattern hash now₂ [] (save_pattern hash now₁ [] s pat₁ (some e)).store
      pat₂ (some e)).store.learned =
      s.learned ++ [mkDbData e (normalize pat₁.questionPattern)
        ("pattern_" ++ hash (e ++ ":" ++ normalize pat₁.questionPattern ++ ":" ++
          pat₁.intent)) pat₂ now₂] := by
  set nq := normalize pat₁.questionPattern with hnq
  set pid := "pattern_" ++ hash (e ++ ":" ++ nq ++ ":" ++ pat₁.intent) with hpid
  have hfil1 : s.learned.filter (fun r => r.user_email == e &&
      r.question_pattern == nq) = [] := by
    rw [List.filter_eq_nil_iff]
    intro r hr
    simp only [Bool.and_eq_true, beq_iff_eq, not_and]
    intro h1 h2
    exact hnew r hr ⟨h1, h2⟩
  have hstep1 := save_pattern_insert_case hash now₁ s pat₁ e hfil1
  set row₁ := mkDbData e nq pid pat₁ now₁ with hrow₁
  have hres1 : (save_pattern hash now₁ [] s pat₁ (some e)).result = true := by
    rw [hstep1]
  have hrow₁mem : (row₁.user_email == e && row₁.question_pattern ==
      normalize pat₂.questionPattern) = true := by
    rw [hq]
    simp [hrow₁, mkDbData]
  have hfil2 : (s.learned ++ [row₁]).filter (fun r => r.user_email == e &&
      r.question_pattern == normalize pat₂.questionPattern) = [row₁] := by
    rw [List.filter_append]
    have ha : s.learned.filter (fun r => r.user_email == e &&
        r.question_pattern == normalize pat₂.questionPattern) = [] := by
      rw [hq]
      exact hfil1
    rw [ha, List.filter_cons, hrow₁mem]
    rfl
  have hstore1 : (save_pattern hash now₁ [] s pat₁ (some e)).store =
      ⟨s.learned ++ [row₁], s.profiles⟩ := by
    rw [hstep1]
    rfl
  have hfil2' : ((save_pattern hash now₁ [] s pat₁ (some e)).store).learned.filter
      (fun r => r.user_email == e &&
        r.question_pattern == normalize pat₂.questionPattern) = [row₁] := by
    rw [hstore1]
    exact hfil2
  have hstep2 := save_pattern_update_case hash now₂
    (save_pattern hash now₁ [] s pat₁ (some e)).store pat₂ e row₁ [] hfil2'
  set row₂ := mkDbData e (normalize pat₂.questionPattern) row₁.id pat₂ now₂ with hrow₂
  have hid₁ : row₁.id = pid := rfl
  have hrow₂id : row₂.id = pid := hid₁
  have hrow₂eq : row₂ = mkDbData e nq pid pat₂ now₂ := by
    rw [hrow₂, hq, hid₁]
  refine ⟨hres1, ?_, ?_⟩
  · rw [hstep2]
  · rw [hstep2]
    have hgoal : (applyUpsertById (save_pattern hash now₁ [] s pat₁ (some e)).store
        row₂).learned = s.learned ++ [mkDbData e nq pid pat₂ now₂] := by
      rw [hstore1]
      unfold applyUpsertById
      have hbeq : (row₁.id == row₂.id) = true := by
        simp [hid₁, hrow₂id]
      have hany : (((⟨s.learned ++ [row₁], s.profiles⟩ : Store).learned).any
          (fun r => r.id == row₂.id)) = true := by
        show ((s.learned ++ [row₁]).any (fun r => r.id == row₂.id)) = true
        rw [List.any_append]
        simp [hbeq]
      rw [if_pos hany]
      show (s.learned ++ [row₁]).map (fun r => if r.id == row₂.id then row₂ else r) =
        s.learned ++ [mkDbData e nq pid pat₂ now₂]
      rw [List.map_append]
      have hmap1 : s.learned.map (fun r => if r.id == row₂.id then row₂ else r) =
          s.learned := by
        apply map_eq_self_of_mem
        intro r hr
        have hne : (r.id == row₂.id) = false := by
          rw [hrow₂id]
          simp only [beq_eq_false_iff_ne, ne_eq]
          exact hfresh r hr
        simp [hne]
      have hmap2 : [row₁].map (fun r => if r.id == row₂.id then row₂ else r) =
          [mkDbData e nq pid pat₂ now₂] := by
        simp only [List.map_cons, List.map_nil, hbeq, if_true]
        rw [hrow₂eq]
      rw [hmap1, hmap2]
    exact hgoal

theorem save_pattern_upsert_identity_witness :
    (save_pattern (fun k => k) "t2" []
      (save_pattern (fun k => k) "t1" [] ⟨[], []⟩
        ⟨"Website", "personal.website", none, none, mkRat 8 10, "AI",
          [⟨"x.com", ["x.com"], []⟩], none⟩ (some "a@x.com")).store
      ⟨"Website ", "personal.website", none, none, mkRat 95 100, "AI",
        [⟨"y.com", ["y.com"], []⟩], none⟩ (some "a@x.com")).store.learned =
    [⟨"pattern_a@x.com:website:personal.website", "a@x.com", "website",
      "personal.website", none, none, mkRat 95 100,
      [⟨"y.com", ["y.com"], []⟩], "t2", "t2"⟩] :=
  (save_pattern_upsert_identity (fun k => k) "t1" "t2" ⟨[], []⟩
    ⟨"Website", "personal.website", none, none, mkRat 8 10, "AI",
      [⟨"x.com", ["x.com"], []⟩], none⟩
    ⟨"Website ", "personal.website", none, none, mkRat 95 100, "AI",
      [⟨"y.com", ["y.com"], []⟩], none⟩
    "a@x.com" (by decide) (by decide) (by decide) (by decide)).2.2.trans
    (by decide)

/-- C2: a referential-integrity failure on the first write triggers
exactly one stub-profile creation (holding just the owner email) and
exactly one retried write, issued with merge-on-conflict semantics; if
the retry fails too, `save_pattern` reports failure and the only store
change is the stub profile. -/
theorem save_pattern_self_heal (hash : String → String) (now : String)
    (s : Store) (pat : Pattern) (e : String) (o₂ : WriteOutcome)
    (rest : List WriteOutcome) :
    (save_pattern hash now (.fkError :: o₂ :: rest) s pat
      (some e)).stubProfiles = [e] ∧
    (save_pattern hash now (.fkError :: o₂ :: rest) s pat
      (some e)).writeOps.length = 2 ∧
    ((save_pattern hash now (.fkError :: o₂ :: rest) s pat
      (some e)).writeOps.map (fun op => op.kind)).getLast? =
      some .upsertOnConflictId ∧
    (o₂ = .ok → (save_pattern hash now (.fkError :: o₂ :: rest) s pat
      (some e)).result = true) ∧
    (o₂ ≠ .ok → (save_pattern hash now (.fkError :: o₂ :: rest) s pat
      (some e)).result = false ∧
      (save_pattern hash now (.fkError :: o₂ :: rest) s pat (some e)).store =
        save_user_profile s e e) := by
  cases o₂ <;> simp [save_pattern]

theorem save_pattern_self_heal_witness :
    (save_pattern (fun k => k) "t0" [.fkError, .otherError] ⟨[], []⟩
      ⟨"Website", "personal.website", none, none, 1, "AI",
        [⟨"x.com", ["x.com"], []⟩], none⟩ (some "a@x.com")).stubProfiles =
      ["a@x.com"] ∧
    (save_pattern (fun k => k) "t0" [.fkError, .otherError] ⟨[], []⟩
      ⟨"Website", "personal.website", none, none, 1, "AI",
        [⟨"x.com", ["x.com"], []⟩], none⟩ (some "a@x.com")).result = false :=
  ⟨(save_pattern_self_heal (fun k => k) "t0" ⟨[], []⟩
      ⟨"Website", "personal.website", none, none, 1, "AI",
        [⟨"x.com", ["x.com"], []⟩], none⟩ "a@x.com" .otherError []).1,
   ((save_pattern_self_heal (fun k => k) "t0" ⟨[], []⟩
      ⟨"Website", "personal.website", none, none, 1, "AI",
        [⟨"x.com", ["x.com"], []⟩], none⟩ "a@x.com" .otherError []).2.2.2.2
      (by decide)).1⟩

end Autofill
